import Mathlib

/-!
Verification of the PicoClaw conversation-memory subsystem.

This file gives a shallow embedding, in Lean 4, of the Go functions of the
repository that the specification talks about:

* pkg/session (SessionManager): AddFullMessage's forwarding filter,
  TruncateHistory, sanitizeFilename and Save's filename validation;
* pkg/storage (MessageStore): StoreMessage, StoreMessages,
  SearchSimilarMessages, SearchSimilarMessagesWithPayload,
  DeleteSessionMessages, structToMap, payloadToMessagePayload;
* pkg/storage/embedding.go (MistralEmbeddingClient):
  GenerateEmbeddingsBatch;
* pkg/tools/qdrant_search.go (QdrantSearchTool.Execute): limit clamping.

Remote calls (embedding API, Qdrant HTTP API) are modelled as oracle
functions supplied in an environment, and every operation additionally
returns the list of client calls it performed, so that claims of the form
"no network call is made" become statements about that list.  Embedding
vectors are opaque values: the Go code never computes with float32
entries, it only passes them through, so a float32 value is modelled by
an opaque bit pattern (a natural number).
-/

namespace PicoClaw

/-- A chat message as far as the modelled code inspects it: role, textual
content, and whether it carries tool calls (providers.Message.ToolCalls
non-empty).  The tool-call payload itself is never read by the modelled
functions, only its presence matters to the repository's test. -/
structure Msg where
  role : String
  content : String
  hasToolCalls : Bool
  deriving DecidableEq, Repr

/-! ## Session store: forwarding filter (pkg/session, AddFullMessage) -/

/-- Translation of the skip conditions in SessionManager.AddFullMessage
(part_001 lines 109-123): with the message store enabled, a freshly
appended message is forwarded to the semantic store unless the session is
the heartbeat session, the role is tool or system, or the content is
empty.  Note that the code has no condition on tool calls. -/
def forwardsToStore (sessionKey : String) (m : Msg) : Bool :=
  !(sessionKey == "heartbeat") && !(m.role == "tool") && !(m.role == "system")
    && !(m.content == "")

/-- Translation of the filtering logic that the repository's own test
(manager_test.go, TestAddFullMessage_FiltersIntermediateAssistantMessages,
lines 148-159) presents as the same filtering logic as in AddFullMessage:
it additionally excludes assistant messages that carry tool calls. -/
def testShouldStore (m : Msg) : Bool :=
  !(m.role == "tool" || m.role == "system")
    && !(m.role == "assistant" && m.hasToolCalls)
    && !(m.content == "")

/-- The four-message exchange used by the specification and by the
repository's test: user question, assistant message carrying a tool call,
tool result, final assistant answer. -/
def exampleExchange : List Msg :=
  [⟨"user", "What is 2+2?", false⟩,
   ⟨"assistant", "Let me calculate that...", true⟩,
   ⟨"tool", "4", false⟩,
   ⟨"assistant", "The answer is 4", false⟩]

/-! ## Session store: truncation (pkg/session, TruncateHistory) -/

/-- The in-memory session mapping, restricted to the field TruncateHistory
touches: for each key, the message sequence of the session stored there,
or none when no session exists under that key. -/
def SessionsMap : Type := String → Option (List Msg)

/-- Replace the message sequence stored under one key. -/
def setMessages (sm : SessionsMap) (key : String) (msgs : List Msg) : SessionsMap :=
  fun k => if k = key then some msgs else sm k

/-- Translation of SessionManager.TruncateHistory (part_001 lines
172-193): unknown key is a no-op; keepLast not positive clears the
sequence; keepLast at least the current length is a no-op; otherwise the
code keeps the final keepLast entries via Messages[len-keepLast:]. -/
def truncateHistory (sm : SessionsMap) (key : String) (keepLast : Int) : SessionsMap :=
  match sm key with
  | none => sm
  | some msgs =>
    if keepLast ≤ 0 then
      setMessages sm key []
    else if (msgs.length : Int) ≤ keepLast then
      sm
    else
      setMessages sm key (msgs.drop (msgs.length - keepLast.toNat))

/-! ## Session store: save-path filename validation (pkg/session, Save) -/

/-- Translation of sanitizeFilename (part_001 lines 200-202): every colon
in the key is replaced by an underscore.  strings.ReplaceAll with a
one-character pattern and a one-character replacement is exactly a
character map, written here over the character list so that it evaluates
inside the kernel. -/
def sanitizeFilename (key : String) : String :=
  String.mk (key.data.map (fun c => if c = ':' then '_' else c))

/-- strings.ContainsAny(filename, "/\\"): the filename holds a slash or a
backslash. -/
def containsPathSep (s : String) : Bool :=
  s.data.any (fun c => c = '/' || c = '\\')

/-- Split a character list on slashes, the element decomposition Go's
filepath code performs with strings.Cut: n separators give n+1 parts. -/
def splitSlash : List Char → List (List Char)
  | [] => [[]]
  | c :: rest =>
    let parts := splitSlash rest
    if c = '/' then [] :: parts
    else
      match parts with
      | [] => [[c]]
      | p :: ps => (c :: p) :: ps

/-- One step of Go's path.Clean element processing for a relative path,
on a reversed accumulator of kept elements: empty and dot elements are
dropped, a dot-dot element pops the previous element unless the previous
element is itself a kept dot-dot (or there is none), any other element is
kept. -/
def cleanStep (acc : List (List Char)) (part : List Char) : List (List Char) :=
  if part = [] || part = ['.'] then acc
  else if part = ['.', '.'] then
    match acc with
    | [] => [['.', '.']]
    | p :: rest => if p = ['.', '.'] then ['.', '.'] :: p :: rest else rest
  else part :: acc

/-- Translation of Go's filepath.IsLocal for the Unix build (the target
platform of the repository): an empty or absolute path is not local, and
otherwise the path is local exactly when its cleaned form neither is
dot-dot nor starts with a dot-dot element. -/
def isLocal (path : String) : Bool :=
  if path.data = [] then false
  else if path.data.head? = some '/' then false
  else
    match ((splitSlash path.data).foldl cleanStep []).reverse with
    | [] => true
    | p :: _ => if p = ['.', '.'] then false else true

/-- The distinct ways SessionManager.Save (part_001 lines 204-281) can
conclude, in the order the code tests for them: an immediate nil return
when the manager has no storage path; an os.ErrInvalid return when the
sanitized filename fails validation; a nil return when no session exists
under the key; and otherwise the snapshot-and-write path.  Only the last
outcome touches the filesystem. -/
inductive SaveOutcome where
  | okNoStorage
  | errInvalid
  | okNotFound
  | written
  deriving DecidableEq, Repr

/-- Translation of the control flow of SessionManager.Save up to the
point where file I/O starts (part_001 lines 204-225): the storage-path
early return, then the filename validation
(filename == "." or not filepath.IsLocal(filename) or it contains a path
separator), then the session lookup. -/
def saveOutcome (storagePath : String) (sessionExists : Bool) (key : String) : SaveOutcome :=
  if storagePath = "" then .okNoStorage
  else
    let filename := sanitizeFilename key
    if filename == "." || !isLocal filename || containsPathSep filename then .errInvalid
    else if !sessionExists then .okNotFound
    else .written

/-- Save returns a non-nil error exactly in the invalid-filename outcome. -/
def saveReturnsError : SaveOutcome → Bool
  | .errInvalid => true
  | _ => false

/-- Save reaches the file-writing code exactly in the written outcome. -/
def saveWritesFile : SaveOutcome → Bool
  | .written => true
  | _ => false

/-! ## Retrieval tool: limit clamping (pkg/tools/qdrant_search.go) -/

/-- The shapes the limit argument of the retrieval tool can take in the
generic argument map, as distinguished by the type switch in Execute
(qdrant_search.go lines 116-127): absent, a Go int, a float64 (which the
code truncates to int; the truncated value is what matters here), a
string (parsed with strconv.Atoi), or any other type. -/
inductive LimitArg where
  | absent
  | int (v : Int)
  | float (truncated : Int)
  | str (s : String)
  | other
  deriving Repr

/-- Translation of the limit extraction in Execute (lines 114-127): start
from the default 5, overwrite from an int, float64 or parseable string
argument, and keep the default for anything else. -/
def extractLimit : LimitArg → Int
  | .absent => 5
  | .int v => v
  | .float t => t
  | .str s => match s.toInt? with
    | some v => v
    | none => 5
  | .other => 5

/-- Translation of the clamping in Execute (lines 128-134): first cap at
20, then raise to 1. -/
def clampLimit (l : Int) : Int :=
  let l := if l > 20 then 20 else l
  if l < 1 then 1 else l

/-- The limit value actually passed to SearchSimilarMessagesWithPayload
for a given limit argument. -/
def usedLimit (a : LimitArg) : Int :=
  clampLimit (extractLimit a)

/-! ## JSON payload model (pkg/storage, structToMap and friends) -/

/-- The JSON values that occur in the modelled payload maps.  Go stores a
generic map whose values, after json.Marshal of a MessagePayload, are
strings and a number. -/
inductive Json where
  | str (s : String)
  | num (n : Int)
  | null
  deriving Repr

/-- A generic string-keyed map, as Go's map[string]any restricted to the
values above. -/
def JsonMap : Type := List (String × Json)

/-- The payload structure for stored messages (part_002 lines 34-41).
A time.Time marshals to its RFC3339 string, so the timestamp field is
carried here as that string. -/
structure MessagePayload where
  sessionKey : String
  role : String
  content : String
  timestamp : String
  messageIndex : Int
  deriving DecidableEq, Repr

/-- Translation of structToMap (part_002 lines 631-643): json.Marshal of
a MessagePayload followed by json.Unmarshal into a generic map yields one
entry per struct field, keyed by the JSON tags, string fields as JSON
strings and the index as a JSON number.  Marshalling a MessagePayload
cannot fail, so the error path of the Go function is unreachable and the
model is total. -/
def structToMap (p : MessagePayload) : JsonMap :=
  [("session_key", .str p.sessionKey),
   ("role", .str p.role),
   ("content", .str p.content),
   ("timestamp", .str p.timestamp),
   ("message_index", .num p.messageIndex)]

/-- Field lookup in a generic map: the first entry with the given key. -/
def lookupField (m : JsonMap) (key : String) : Option Json :=
  match m with
  | [] => none
  | (k, v) :: rest => if k = key then some v else lookupField rest key

/-- Go json.Unmarshal semantics for a string-typed struct field: a
missing key leaves the zero value, a JSON string is taken verbatim, any
other JSON value is a type error. -/
def getStringField (m : JsonMap) (key : String) : Except String String :=
  match lookupField m key with
  | none => .ok ""
  | some (.str s) => .ok s
  | some _ => .error ("cannot unmarshal field " ++ key)

/-- Go json.Unmarshal semantics for an int-typed struct field. -/
def getIntField (m : JsonMap) (key : String) : Except String Int :=
  match lookupField m key with
  | none => .ok 0
  | some (.num n) => .ok n
  | some _ => .error ("cannot unmarshal field " ++ key)

/-- Translation of payloadToMessagePayload (part_002 lines 664-676):
json.Marshal of the generic map followed by json.Unmarshal into a
MessagePayload, which reads each tagged field back.  The timestamp field
travels as its string form and is not re-parsed by this model. -/
def payloadToMessagePayload (m : JsonMap) : Except String MessagePayload := do
  let sessionKey ← getStringField m "session_key"
  let role ← getStringField m "role"
  let content ← getStringField m "content"
  let timestamp ← getStringField m "timestamp"
  let messageIndex ← getIntField m "message_index"
  return ⟨sessionKey, role, content, timestamp, messageIndex⟩

/-- Translation of payloadToMessage (part_002 lines 646-661): decode the
payload and keep only the role and content fields of the message. -/
def payloadToMessage (m : JsonMap) : Except String Msg := do
  let p ← payloadToMessagePayload m
  return ⟨p.role, p.content, false⟩

/-! ## Embedding client (pkg/storage/embedding.go) -/

/-- A float32 entry of an embedding vector, identified with its bit
pattern: the modelled Go code never computes with these values, it only
moves them around. -/
abbrev Float32 : Type := Nat

/-- An embedding vector. -/
abbrev Vec : Type := List Float32

/-- One element of the data array of a Mistral embeddings response
(embedding.go lines 50-54). -/
structure MistralItem where
  embedding : Vec
  index : Int

/-- A decoded Mistral embeddings response, restricted to the field the
batch path reads. -/
structure MistralResponse where
  data : List MistralItem

/-- Translation of MistralEmbeddingClient.GenerateEmbeddingsBatch
(embedding.go lines 126-177).  The remote round trip (request marshal,
HTTP POST, response decode) is an oracle from the input texts to either a
transport-or-status error or a decoded response.  The second component of
the result records whether a remote request was issued.  The code checks
the API key before the empty-input short cut, and it converts the
response by taking one vector per response data item, with no check
against the number of input texts. -/
def generateEmbeddingsBatch (apiKey : String) (texts : List String)
    (remote : List String → Except String MistralResponse) :
    Except String (List Vec) × Bool :=
  if apiKey = "" then (.error "Mistral API key is not configured", false)
  else if texts = [] then (.ok [], false)
  else
    match remote texts with
    | .error e => (.error e, true)
    | .ok resp => (.ok (resp.data.map (fun item => item.embedding)), true)

/-! ## Message store (pkg/storage, MessageStore) -/

/-- A Qdrant point (part_002 lines 28-32): identifier, vector, payload. -/
structure Point where
  id : Int
  vector : Vec
  payload : JsonMap

/-- A Qdrant search hit, restricted to the field the modelled code reads
(result.Payload). -/
structure ScoredPoint where
  id : Int
  payload : JsonMap

/-- The client calls a message-store operation can perform, one
constructor per remote operation of the embedding client and the Qdrant
client. -/
inductive ClientCall where
  | embedOne (text : String)
  | embedBatch (texts : List String)
  | upsert (points : List Point)
  | search (vector : Vec) (sessionKey : String) (limit : Int)
  | deleteByKey (sessionKey : String)

/-- Oracles for the remote clients a MessageStore holds: each field gives
the outcome of the corresponding remote call. -/
structure RemoteEnv where
  embedOne : String → Except String Vec
  embedBatch : List String → Except String (List Vec)
  upsert : List Point → Except String Unit
  search : Vec → String → Int → Except String (List ScoredPoint)
  deleteByKey : String → Except String Unit

/-- Two's-complement wraparound of Go's int64 arithmetic: the
representative of n modulo 2 to the 64 inside the int64 range.  Go's
increment of the counter field is this wrap applied to the successor. -/
def wrap64 (n : Int) : Int :=
  (n + 2 ^ 63) % 2 ^ 64 - 2 ^ 63

/-- The mutable state of a MessageStore (part_002 lines 342-349): the
enabled flag and the point-identifier counter.  The counter is a Go
int64: a fresh store starts it at the zero value, and every increment is
performed through wrap64, so the field always holds a value in the int64
range. -/
structure MState where
  enabled : Bool
  pointCounter : Int
  deriving DecidableEq, Repr

/-- A batch-store input element (part_002 lines 352-357), with the
timestamp carried as its string form. -/
structure StoredMessage where
  sessionKey : String
  message : Msg
  timestamp : String
  index : Int

/-- Translation of MessageStore.StoreMessage (part_002 lines 431-476):
disabled stores return nil at once; otherwise the content is embedded,
the payload built, the counter incremented, and the single point
upserted.  The result carries the new store state, the returned error
value, and the client calls performed. -/
def storeMessage (env : RemoteEnv) (s : MState) (sessionKey : String) (msg : Msg)
    (index : Int) (now : String) : MState × Except String Unit × List ClientCall :=
  if s.enabled = false then (s, .ok (), [])
  else
    match env.embedOne msg.content with
    | .error e => (s, .error ("failed to generate embedding: " ++ e), [.embedOne msg.content])
    | .ok v =>
      let payloadMap := structToMap ⟨sessionKey, msg.role, msg.content, now, index⟩
      let s' : MState := ⟨s.enabled, wrap64 (s.pointCounter + 1)⟩
      let pt : Point := ⟨s'.pointCounter, v, payloadMap⟩
      match env.upsert [pt] with
      | .error e =>
        (s', .error ("failed to upsert point to Qdrant: " ++ e),
          [.embedOne msg.content, .upsert [pt]])
      | .ok _ => (s', .ok (), [.embedOne msg.content, .upsert [pt]])

/-- The point-building loop of MessageStore.StoreMessages (part_002 lines
501-524): message i is paired with vectors[i] and the identifier obtained
by the i+1-st wrapped int64 increment of the incoming counter; the value
of the counter after the loop is returned with the points.  The indexed
access vectors[i] has no bounds guard in the code, so when the vectors
run out before the messages do the loop panics: that is the none
outcome. -/
def buildPoints : Int → List StoredMessage → List Vec → Option (List Point × Int)
  | c, [], _ => some ([], c)
  | _, _ :: _, [] => none
  | c, m :: ms, v :: vs =>
    let c' := wrap64 (c + 1)
    match buildPoints c' ms vs with
    | none => none
    | some (pts, cfin) =>
      some (⟨c', v, structToMap ⟨m.sessionKey, m.message.role, m.message.content,
        m.timestamp, m.index⟩⟩ :: pts, cfin)

/-- Translation of MessageStore.StoreMessages (part_002 lines 479-532):
disabled stores return nil at once; otherwise all contents are embedded
in one batch call, the points are built with consecutive identifiers, and
upserted in one call.  The none outcome is the out-of-range panic inside
the point-building loop. -/
def storeMessages (env : RemoteEnv) (s : MState) (msgs : List StoredMessage) :
    Option (MState × Except String Unit × List ClientCall) :=
  if s.enabled = false then some (s, .ok (), [])
  else
    let texts := msgs.map (fun m => m.message.content)
    match env.embedBatch texts with
    | .error e => some (s, .error ("failed to generate embeddings: " ++ e), [.embedBatch texts])
    | .ok vectors =>
      match buildPoints s.pointCounter msgs vectors with
      | none => none
      | some (pts, cfin) =>
        let s' : MState := ⟨s.enabled, cfin⟩
        match env.upsert pts with
        | .error e =>
          (some (s', .error ("failed to upsert points to Qdrant: " ++ e),
            [.embedBatch texts, .upsert pts]))
        | .ok _ => some (s', .ok (), [.embedBatch texts, .upsert pts])

/-- Translation of MessageStore.SearchSimilarMessages (part_002 lines
535-570): disabled stores return an empty list and nil error; otherwise
the query is embedded, the search issued, and each hit decoded to a
message, with undecodable hits skipped. -/
def searchSimilarMessages (env : RemoteEnv) (s : MState) (sessionKey query : String)
    (limit : Int) : Except String (List Msg) × List ClientCall :=
  if s.enabled = false then (.ok [], [])
  else
    match env.embedOne query with
    | .error e => (.error ("failed to generate query embedding: " ++ e), [.embedOne query])
    | .ok v =>
      match env.search v sessionKey limit with
      | .error e =>
        (.error ("failed to search Qdrant: " ++ e), [.embedOne query, .search v sessionKey limit])
      | .ok results =>
        (.ok (results.filterMap (fun r => (payloadToMessage r.payload).toOption)),
          [.embedOne query, .search v sessionKey limit])

/-- Translation of MessageStore.SearchSimilarMessagesWithPayload
(part_002 lines 574-609): as the search above, but each hit is decoded
to the full payload. -/
def searchSimilarMessagesWithPayload (env : RemoteEnv) (s : MState)
    (sessionKey query : String) (limit : Int) :
    Except String (List MessagePayload) × List ClientCall :=
  if s.enabled = false then (.ok [], [])
  else
    match env.embedOne query with
    | .error e => (.error ("failed to generate query embedding: " ++ e), [.embedOne query])
    | .ok v =>
      match env.search v sessionKey limit with
      | .error e =>
        (.error ("failed to search Qdrant: " ++ e), [.embedOne query, .search v sessionKey limit])
      | .ok results =>
        (.ok (results.filterMap (fun r => (payloadToMessagePayload r.payload).toOption)),
          [.embedOne query, .search v sessionKey limit])

/-- Translation of MessageStore.DeleteSessionMessages (part_002 lines
612-628): disabled stores return nil at once; otherwise one filtered
delete call. -/
def deleteSessionMessages (env : RemoteEnv) (s : MState) (sessionKey : String) :
    Except String Unit × List ClientCall :=
  if s.enabled = false then (.ok (), [])
  else
    match env.deleteByKey sessionKey with
    | .error e => (.error ("failed to delete session messages: " ++ e), [.deleteByKey sessionKey])
    | .ok _ => (.ok (), [.deleteByKey sessionKey])

/-! ## Runs of store operations (for the identifier-monotonicity claim) -/

/-- A write operation of one run of the message store. -/
inductive StoreOp where
  | one (sessionKey : String) (msg : Msg) (index : Int) (now : String)
  | batch (msgs : List StoredMessage)

/-- Apply one write operation, keeping the state it leaves behind and the
client calls it performed; none is the panic outcome of a batch store. -/
def applyStoreOp (env : RemoteEnv) (s : MState) : StoreOp → Option (MState × List ClientCall)
  | .one k m i now =>
    let r := storeMessage env s k m i now
    some (r.1, r.2.2)
  | .batch msgs =>
    match storeMessages env s msgs with
    | none => none
    | some r => some (r.1, r.2.2)

/-- The point identifiers a list of client calls upserts, in call order. -/
def callIds : ClientCall → List Int
  | .upsert pts => pts.map (fun p => p.id)
  | _ => []

/-- All point identifiers upserted by a list of client calls. -/
def upsertedIds (calls : List ClientCall) : List Int :=
  (calls.map callIds).flatten

/-- The point identifiers upserted over a whole run of write operations,
in operation order; a panicking operation ends the run. -/
def runIds (env : RemoteEnv) : MState → List StoreOp → List Int
  | _, [] => []
  | s, op :: ops =>
    match applyStoreOp env s op with
    | none => []
    | some (s', calls) => upsertedIds calls ++ runIds env s' ops

/-! ## Theorems -/

/-- C1: on the four-message exchange of the specification, in a
non-heartbeat session with the store enabled, the forwarding filter of
AddFullMessage forwards three messages, among them the intermediate
assistant message that carries a tool call — not the two messages the
claim states.  The third conjunct shows that the filtering logic the
repository's own test presents as the same as AddFullMessage (which
additionally excludes assistant messages with tool calls) forwards
exactly two, so the code diverges from its own test's documented
intent. -/
theorem addFullMessage_forwards_three_of_example :
    (exampleExchange.filter (forwardsToStore "telegram:123456")).length = 3 ∧
    forwardsToStore "telegram:123456" ⟨"assistant", "Let me calculate that...", true⟩ = true ∧
    (exampleExchange.filter testShouldStore).length = 2 := by
  decide

/-- C3: the limit the retrieval tool passes to the similarity search lies
in the inclusive range one to twenty for every shape of the requested
limit argument; a request below one is raised to one and a request above
twenty is lowered to twenty. -/
theorem usedLimit_clamped :
    (∀ a : LimitArg, 1 ≤ usedLimit a ∧ usedLimit a ≤ 20) ∧
    (∀ v : Int, v < 1 → usedLimit (.int v) = 1) ∧
    (∀ v : Int, 20 < v → usedLimit (.int v) = 20) := by
  have hclamp : ∀ l : Int, 1 ≤ clampLimit l ∧ clampLimit l ≤ 20 := by
    intro l
    simp only [clampLimit]
    split_ifs <;> omega
  refine ⟨fun a => hclamp (extractLimit a), fun v hv => ?_, fun v hv => ?_⟩
  · simp only [usedLimit, extractLimit, clampLimit]
    split_ifs <;> omega
  · simp only [usedLimit, extractLimit, clampLimit]
    split_ifs <;> omega

/-- Witness for the clamping theorem at the requested limits zero and one
hundred. -/
theorem usedLimit_clamped_witness :
    (1 ≤ usedLimit (.int 0) ∧ usedLimit (.int 0) ≤ 20) ∧
    usedLimit (.int 0) = 1 ∧ usedLimit (.int 100) = 20 :=
  ⟨usedLimit_clamped.1 (.int 0),
   usedLimit_clamped.2.1 0 (by norm_num),
   usedLimit_clamped.2.2 100 (by norm_num)⟩

/-- C10: with an empty storage path, Save returns nil for every key and
session state — the early return precedes the filename validation — and
the file-writing code is never reached. -/
theorem save_empty_storage_always_ok (key : String) (sessionExists : Bool) :
    saveOutcome "" sessionExists key = .okNoStorage ∧
    saveReturnsError (saveOutcome "" sessionExists key) = false ∧
    saveWritesFile (saveOutcome "" sessionExists key) = false := by
  refine ⟨rfl, ?_, ?_⟩ <;> rfl

/-- C2: with a storage directory configured, Save returns an error for
every key whose sanitized filename is empty, a dot, a dot-dot, or holds a
path separator, and the file-writing code is not reached. -/
theorem save_rejects_invalid_filenames (storagePath key : String) (sessionExists : Bool)
    (hstore : storagePath ≠ "")
    (hbad : sanitizeFilename key = "" ∨ sanitizeFilename key = "." ∨
      sanitizeFilename key = ".." ∨ containsPathSep (sanitizeFilename key) = true) :
    saveOutcome storagePath sessionExists key = .errInvalid ∧
    saveReturnsError (saveOutcome storagePath sessionExists key) = true ∧
    saveWritesFile (saveOutcome storagePath sessionExists key) = false := by
  have hcond : (sanitizeFilename key == "." || !isLocal (sanitizeFilename key)
      || containsPathSep (sanitizeFilename key)) = true := by
    rcases hbad with h | h | h | h
    · rw [h]; decide
    · rw [h]; decide
    · rw [h]; decide
    · simp [h]
  have houtcome : saveOutcome storagePath sessionExists key = .errInvalid := by
    unfold saveOutcome
    rw [if_neg hstore, if_pos hcond]
  refine ⟨houtcome, ?_, ?_⟩ <;> rw [houtcome] <;> rfl

/-- Witness for the invalid-filename theorem at the concrete key
"foo/bar" with a configured storage directory. -/
theorem save_rejects_invalid_filenames_witness :
    ("sessions" : String) ≠ "" ∧
    containsPathSep (sanitizeFilename "foo/bar") = true ∧
    (saveOutcome "sessions" true "foo/bar" = .errInvalid ∧
     saveReturnsError (saveOutcome "sessions" true "foo/bar") = true ∧
     saveWritesFile (saveOutcome "sessions" true "foo/bar") = false) :=
  ⟨by decide, by decide,
   save_rejects_invalid_filenames "sessions" "foo/bar" true (by decide)
     (Or.inr (Or.inr (Or.inr (by decide))))⟩

/-- C6: converting a MessagePayload to a generic map and back yields a
payload with identical role and content fields. -/
theorem payload_round_trip (p : MessagePayload) :
    ∃ q, payloadToMessagePayload (structToMap p) = .ok q ∧
      q.role = p.role ∧ q.content = p.content := by
  exact ⟨⟨p.sessionKey, p.role, p.content, p.timestamp, p.messageIndex⟩, rfl, rfl, rfl⟩

/-- C7 counterexample: with no API credential configured, the batch
embedding call on an empty list of texts returns a configuration error,
not an empty list of vectors. -/
theorem batch_empty_without_key_errors :
    (generateEmbeddingsBatch "" [] (fun _ => .error "unused")).1 ≠ .ok [] := by
  simp [generateEmbeddingsBatch]

/-- C7 amended: an empty list of texts yields an empty list of vectors
with no remote request when an API credential is configured; with an
empty credential, the call returns the configuration error (also without
a remote request). -/
theorem batch_empty_input (apiKey : String)
    (remote rem2 : List String → Except String MistralResponse) (h : apiKey ≠ "") :
    generateEmbeddingsBatch apiKey [] remote = (.ok [], false) ∧
    generateEmbeddingsBatch "" [] rem2 = (.error "Mistral API key is not configured", false) := by
  constructor
  · simp [generateEmbeddingsBatch, h]
  · rfl

/-- Witness for the empty-input batch theorem at a concrete credential. -/
theorem batch_empty_input_witness :
    ("key" : String) ≠ "" ∧
    generateEmbeddingsBatch "key" [] (fun _ => .error "unused") = (.ok [], false) :=
  ⟨by decide,
   (batch_empty_input "key" (fun _ => .error "unused") (fun _ => .error "unused")
     (by decide)).1⟩

/-- C4: for a session holding msgs, truncating to zero empties the
history; truncating to at least the current length leaves the whole
mapping unchanged; truncating to n strictly between zero and the length
keeps exactly the last n messages in their original order; and truncation
under an unknown key is a no-op on the whole mapping. -/
theorem truncateHistory_spec (sm : SessionsMap) (key : String) (msgs : List Msg)
    (h : sm key = some msgs) :
    truncateHistory sm key 0 key = some [] ∧
    (∀ n : Int, (msgs.length : Int) ≤ n → truncateHistory sm key n = sm) ∧
    (∀ n : Int, 0 < n → n < (msgs.length : Int) →
      ∃ kept dropped, truncateHistory sm key n key = some kept ∧
        msgs = dropped ++ kept ∧ (kept.length : Int) = n) ∧
    (∀ k' : String, sm k' = none → ∀ n : Int, truncateHistory sm k' n = sm) := by
  refine ⟨?_, ?_, ?_, ?_⟩
  · simp [truncateHistory, h, setMessages]
  · intro n hn
    by_cases hn0 : n ≤ 0
    · have hlen : msgs = [] := by
        have : msgs.length = 0 := by omega
        exact List.length_eq_zero.mp this
      simp only [truncateHistory, h, if_pos hn0]
      funext k
      by_cases hk : k = key
      · subst hk
        simp [setMessages, h, hlen]
      · simp [setMessages, hk]
    · simp only [truncateHistory, h, if_neg hn0, if_pos hn]
  · intro n hn0 hnlen
    have hkeep : ¬ n ≤ 0 := by omega
    have hlen : ¬ (msgs.length : Int) ≤ n := by omega
    refine ⟨msgs.drop (msgs.length - n.toNat), msgs.take (msgs.length - n.toNat), ?_, ?_, ?_⟩
    · simp [truncateHistory, h, if_neg hkeep, if_neg hlen, setMessages]
    · exact (List.take_append_drop _ msgs).symm
    · simp only [List.length_drop]
      omega
  · intro k' hk' n
    simp [truncateHistory, hk']

/-- A three-message session under one key, for the truncation witness. -/
def smExample : SessionsMap :=
  fun k =>
    if k = "telegram:123456" then
      some [⟨"user", "hi", false⟩, ⟨"assistant", "hello", false⟩, ⟨"user", "bye", false⟩]
    else none

/-- Witness for the truncation theorem on the concrete three-message
session. -/
theorem truncateHistory_spec_witness :
    smExample "telegram:123456" =
      some [⟨"user", "hi", false⟩, ⟨"assistant", "hello", false⟩, ⟨"user", "bye", false⟩] ∧
    (truncateHistory smExample "telegram:123456" 0 "telegram:123456" = some [] ∧
     (∀ n : Int, ((3 : Nat) : Int) ≤ n → truncateHistory smExample "telegram:123456" n = smExample) ∧
     (∀ n : Int, 0 < n → n < ((3 : Nat) : Int) →
       ∃ kept dropped, truncateHistory smExample "telegram:123456" n "telegram:123456" = some kept ∧
         [(⟨"user", "hi", false⟩ : Msg), ⟨"assistant", "hello", false⟩, ⟨"user", "bye", false⟩]
           = dropped ++ kept ∧ (kept.length : Int) = n) ∧
     (∀ k' : String, smExample k' = none → ∀ n : Int,
       truncateHistory smExample k' n = smExample)) :=
  ⟨rfl, truncateHistory_spec smExample "telegram:123456" _ rfl⟩

/-- C5: with the store disabled, every operation of the message store
returns success or an empty result without performing any client call:
single store, batch store, both searches, and session delete. -/
theorem disabled_store_noop (env : RemoteEnv) (s : MState) (h : s.enabled = false) :
    (∀ k m i now, storeMessage env s k m i now = (s, .ok (), [])) ∧
    (∀ msgs, storeMessages env s msgs = some (s, .ok (), [])) ∧
    (∀ k q l, searchSimilarMessages env s k q l = (.ok [], [])) ∧
    (∀ k q l, searchSimilarMessagesWithPayload env s k q l = (.ok [], [])) ∧
    (∀ k, deleteSessionMessages env s k = (.ok (), [])) := by
  refine ⟨fun k m i now => ?_, fun msgs => ?_, fun k q l => ?_, fun k q l => ?_, fun k => ?_⟩
  · simp [storeMessage, h]
  · simp [storeMessages, h]
  · simp [searchSimilarMessages, h]
  · simp [searchSimilarMessagesWithPayload, h]
  · simp [deleteSessionMessages, h]

/-- A remote environment whose every call fails, for the disabled-store
witness: a disabled store must not reach it. -/
def envOff : RemoteEnv :=
  ⟨fun _ => .error "unreachable", fun _ => .error "unreachable", fun _ => .error "unreachable",
   fun _ _ _ => .error "unreachable", fun _ => .error "unreachable"⟩

/-- A disabled store state, for the disabled-store witness. -/
def msOff : MState := ⟨false, 0⟩

/-- Witness for the disabled-store theorem at concrete inputs. -/
theorem disabled_store_noop_witness :
    msOff.enabled = false ∧
    storeMessage envOff msOff "telegram:123456" ⟨"user", "hi", false⟩ 0 "t0" =
      (msOff, .ok (), []) ∧
    storeMessages envOff msOff [⟨"telegram:123456", ⟨"user", "hi", false⟩, "t0", 0⟩] =
      some (msOff, .ok (), []) ∧
    searchSimilarMessages envOff msOff "telegram:123456" "query" 5 = (.ok [], []) ∧
    searchSimilarMessagesWithPayload envOff msOff "telegram:123456" "query" 5 = (.ok [], []) ∧
    deleteSessionMessages envOff msOff "telegram:123456" = (.ok (), []) := by
  have h := disabled_store_noop envOff msOff rfl
  exact ⟨rfl, h.1 _ _ _ _, h.2.1 _, h.2.2.1 _ _ _, h.2.2.2.1 _ _ _, h.2.2.2.2 _⟩

/-- The point-building loop of StoreMessages completes without an
out-of-range access exactly when the batch embedding returned at least
one vector per message. -/
lemma buildPoints_isSome (c : Int) (msgs : List StoredMessage) (vecs : List Vec) :
    (buildPoints c msgs vecs).isSome = true ↔ msgs.length ≤ vecs.length := by
  induction msgs generalizing c vecs with
  | nil => simp [buildPoints]
  | cons m ms ih =>
    cases vecs with
    | nil => simp [buildPoints]
    | cons v vs =>
      have h := ih (wrap64 (c + 1)) vs
      simp only [buildPoints, List.length_cons]
      cases hb : buildPoints (wrap64 (c + 1)) ms vs with
      | none =>
        rw [hb] at h
        simp only [Option.isSome_none] at h ⊢
        rw [h]
        omega
      | some pr =>
        obtain ⟨pts, cfin⟩ := pr
        rw [hb] at h
        simp only [Option.isSome_some] at h ⊢
        rw [h]
        omega

/-- C9: StoreMessages indexes the batch result without a length check:
the point-building loop avoids an out-of-range access exactly under the
precondition that the embedder returned at least as many vectors as there
are messages; and the embedding client itself returns one vector per
response data item, whatever the number of input texts, with no
validation against the input length. -/
theorem storeMessages_index_precondition :
    (∀ (c : Int) (msgs : List StoredMessage) (vecs : List Vec),
      (buildPoints c msgs vecs).isSome = true ↔ msgs.length ≤ vecs.length) ∧
    (∀ (apiKey : String) (texts : List String)
        (remote : List String → Except String MistralResponse) (resp : MistralResponse),
      apiKey ≠ "" → texts ≠ [] → remote texts = .ok resp →
      (generateEmbeddingsBatch apiKey texts remote).1 =
        .ok (resp.data.map (fun item => item.embedding))) := by
  refine ⟨buildPoints_isSome, ?_⟩
  intro apiKey texts remote resp hkey htexts hremote
  simp [generateEmbeddingsBatch, hkey, htexts, hremote]

/-- A remote embedding oracle answering every request with a fixed
two-item response, for the index-precondition witness: two vectors for a
single input text. -/
def respTwo : MistralResponse := ⟨[⟨[0, 1], 0⟩, ⟨[2, 3], 1⟩]⟩

/-- The oracle returning respTwo for every input. -/
def remoteTwo : List String → Except String MistralResponse := fun _ => .ok respTwo

/-- Witness for the index-precondition theorem: one message with zero
vectors panics (isSome is false on both sides of the equivalence), and
one input text yields the two vectors of the response. -/
theorem storeMessages_index_precondition_witness :
    ((buildPoints 0 [⟨"telegram:123456", ⟨"user", "hi", false⟩, "t0", 0⟩] []).isSome = true ↔
      (1 : Nat) ≤ 0) ∧
    ("key" : String) ≠ "" ∧ (["hi"] : List String) ≠ [] ∧
    remoteTwo ["hi"] = .ok respTwo ∧
    (generateEmbeddingsBatch "key" ["hi"] remoteTwo).1 =
      .ok (respTwo.data.map (fun item => item.embedding)) :=
  ⟨storeMessages_index_precondition.1 0 _ _, by decide, by decide, rfl,
   storeMessages_index_precondition.2 "key" ["hi"] remoteTwo respTwo (by decide) (by decide) rfl⟩

/-- Wrapping an int64 successor that stays inside the int64 range is the
plain successor. -/
lemma wrap64_eq_of_lt {n : Int} (h0 : -(2 ^ 63) ≤ n) (h1 : n < 2 ^ 63) :
    wrap64 n = n := by
  unfold wrap64
  omega

/-- The points built by the StoreMessages loop carry strictly increasing
identifiers when the counter cannot wrap during the call: all above the
incoming counter value and at most the outgoing counter value, which is
the incoming value plus the number of messages. -/
lemma buildPoints_ids (c : Int) (msgs : List StoredMessage) (vecs : List Vec)
    (pts : List Point) (cfin : Int) (h : buildPoints c msgs vecs = some (pts, cfin))
    (h0 : 0 ≤ c) (hbnd : c + msgs.length ≤ 2 ^ 63 - 1) :
    cfin = c + msgs.length ∧
    (pts.map (fun p => p.id)).Pairwise (· < ·) ∧
    ∀ id ∈ pts.map (fun p => p.id), c < id ∧ id ≤ c + msgs.length := by
  induction msgs generalizing c vecs pts cfin with
  | nil =>
    simp only [buildPoints, Option.some.injEq, Prod.mk.injEq] at h
    obtain ⟨rfl, rfl⟩ := h
    simp
  | cons m ms ih =>
    cases vecs with
    | nil => simp [buildPoints] at h
    | cons v vs =>
      push_cast [List.length_cons] at hbnd
      have hw : wrap64 (c + 1) = c + 1 := wrap64_eq_of_lt (by omega) (by omega)
      simp only [buildPoints, hw] at h
      cases hb : buildPoints (c + 1) ms vs with
      | none => rw [hb] at h; simp at h
      | some pr =>
        obtain ⟨rest, cfin'⟩ := pr
        rw [hb] at h
        simp only [Option.some.injEq, Prod.mk.injEq] at h
        obtain ⟨rfl, rfl⟩ := h
        obtain ⟨hcf, hpair, hbound⟩ := ih (c + 1) vs rest cfin' hb (by omega) (by omega)
        refine ⟨?_, ?_, ?_⟩
        · push_cast [List.length_cons]
          omega
        · simp only [List.map_cons]
          exact List.Pairwise.cons (fun b hbmem => (hbound b hbmem).1) hpair
        · intro id hid
          simp only [List.map_cons, List.mem_cons] at hid
          rcases hid with rfl | hid
          · refine ⟨by omega, ?_⟩
            push_cast [List.length_cons]
            omega
          · obtain ⟨h1, h2⟩ := hbound id hid
            refine ⟨by omega, ?_⟩
            push_cast [List.length_cons] at h2 ⊢
            omega

/-- A single StoreMessage call below the wrap bound advances the counter
by at most one, and the identifiers it upserts are strictly increasing,
above the incoming counter and at most the outgoing counter. -/
lemma storeMessage_ids (env : RemoteEnv) (s : MState) (k : String) (m : Msg)
    (i : Int) (now : String) (h0 : 0 ≤ s.pointCounter)
    (hbnd : s.pointCounter + 1 ≤ 2 ^ 63 - 1) :
    s.pointCounter ≤ (storeMessage env s k m i now).1.pointCounter ∧
    (storeMessage env s k m i now).1.pointCounter ≤ s.pointCounter + 1 ∧
    (upsertedIds (storeMessage env s k m i now).2.2).Pairwise (· < ·) ∧
    ∀ id ∈ upsertedIds (storeMessage env s k m i now).2.2,
      s.pointCounter < id ∧ id ≤ (storeMessage env s k m i now).1.pointCounter := by
  have hw : wrap64 (s.pointCounter + 1) = s.pointCounter + 1 :=
    wrap64_eq_of_lt (by omega) (by omega)
  by_cases he : s.enabled = false
  · simp [storeMessage, he, upsertedIds, callIds]
  · cases hemb : env.embedOne m.content with
    | error e => simp [storeMessage, he, hemb, upsertedIds, callIds]
    | ok v =>
      cases hup : env.upsert
          [⟨s.pointCounter + 1, v, structToMap ⟨k, m.role, m.content, now, i⟩⟩] with
      | error e =>
        simp [storeMessage, he, hemb, hw, hup, upsertedIds, callIds]
      | ok u =>
        simp [storeMessage, he, hemb, hw, hup, upsertedIds, callIds]

/-- A completed StoreMessages call below the wrap bound advances the
counter by at most the batch size, and the identifiers it upserts are
strictly increasing, above the incoming counter and at most the outgoing
counter. -/
lemma storeMessages_ids (env : RemoteEnv) (s : MState) (msgs : List StoredMessage)
    (s' : MState) (res : Except String Unit) (calls : List ClientCall)
    (h : storeMessages env s msgs = some (s', res, calls))
    (h0 : 0 ≤ s.pointCounter)
    (hbnd : s.pointCounter + msgs.length ≤ 2 ^ 63 - 1) :
    s.pointCounter ≤ s'.pointCounter ∧
    s'.pointCounter ≤ s.pointCounter + msgs.length ∧
    (upsertedIds calls).Pairwise (· < ·) ∧
    ∀ id ∈ upsertedIds calls, s.pointCounter < id ∧ id ≤ s'.pointCounter := by
  by_cases he : s.enabled = false
  · simp only [storeMessages, he, if_pos rfl, Option.some.injEq, Prod.mk.injEq] at h
    obtain ⟨rfl, -, rfl⟩ := h
    refine ⟨le_rfl, by omega, by simp [upsertedIds], by simp [upsertedIds]⟩
  · simp only [storeMessages, if_neg he] at h
    cases hb : env.embedBatch (msgs.map fun m => m.message.content) with
    | error e =>
      rw [hb] at h
      simp only [Option.some.injEq, Prod.mk.injEq] at h
      obtain ⟨rfl, -, rfl⟩ := h
      refine ⟨le_rfl, by omega, by simp [upsertedIds, callIds], by simp [upsertedIds, callIds]⟩
    | ok vectors =>
      rw [hb] at h
      cases hp : buildPoints s.pointCounter msgs vectors with
      | none => simp [hp] at h
      | some pr =>
        obtain ⟨pts, cfin⟩ := pr
        obtain ⟨hcf, hpair, hbound⟩ :=
          buildPoints_ids s.pointCounter msgs vectors pts cfin hp h0 hbnd
        cases hup : env.upsert pts with
        | error e =>
          simp only [hp, hup, Option.some.injEq, Prod.mk.injEq] at h
          obtain ⟨rfl, -, rfl⟩ := h
          refine ⟨by simp [hcf], by simp [hcf], ?_, ?_⟩
          · simpa [upsertedIds, callIds] using hpair
          · intro id hid
            simp only [upsertedIds, callIds, List.map_cons, List.map_nil,
              List.flatten_cons, List.flatten_nil, List.nil_append,
              List.append_nil] at hid
            simpa [hcf] using hbound id hid
        | ok u =>
          simp only [hp, hup, Option.some.injEq, Prod.mk.injEq] at h
          obtain ⟨rfl, -, rfl⟩ := h
          refine ⟨by simp [hcf], by simp [hcf], ?_, ?_⟩
          · simpa [upsertedIds, callIds] using hpair
          · intro id hid
            simp only [upsertedIds, callIds, List.map_cons, List.map_nil,
              List.flatten_cons, List.flatten_nil, List.nil_append,
              List.append_nil] at hid
            simpa [hcf] using hbound id hid

/-- The number of identifier increments an operation can consume: one for
a single store, the batch size for a batch store. -/
def opAlloc : StoreOp → Nat
  | .one _ _ _ _ => 1
  | .batch msgs => msgs.length

/-- The total number of identifier increments a run of operations can
consume. -/
def runAlloc (ops : List StoreOp) : Nat :=
  (ops.map opAlloc).sum

/-- The combined per-operation bound for a run step below the wrap
bound. -/
lemma applyStoreOp_ids (env : RemoteEnv) (s : MState) (op : StoreOp) (s' : MState)
    (calls : List ClientCall) (h : applyStoreOp env s op = some (s', calls))
    (h0 : 0 ≤ s.pointCounter)
    (hbnd : s.pointCounter + opAlloc op ≤ 2 ^ 63 - 1) :
    s.pointCounter ≤ s'.pointCounter ∧
    s'.pointCounter ≤ s.pointCounter + opAlloc op ∧
    (upsertedIds calls).Pairwise (· < ·) ∧
    ∀ id ∈ upsertedIds calls, s.pointCounter < id ∧ id ≤ s'.pointCounter := by
  cases op with
  | one k m i now =>
    simp only [applyStoreOp, Option.some.injEq, Prod.mk.injEq] at h
    obtain ⟨rfl, rfl⟩ := h
    simp only [opAlloc] at hbnd ⊢
    push_cast at hbnd ⊢
    exact storeMessage_ids env s k m i now h0 (by omega)
  | batch msgs =>
    simp only [applyStoreOp] at h
    cases hs : storeMessages env s msgs with
    | none => rw [hs] at h; simp at h
    | some r =>
      obtain ⟨rs, rres, rcalls⟩ := r
      rw [hs] at h
      simp only [Option.some.injEq, Prod.mk.injEq] at h
      obtain ⟨rfl, rfl⟩ := h
      simp only [opAlloc] at hbnd ⊢
      exact storeMessages_ids env s msgs rs rres rcalls hs h0 hbnd

/-- Over a whole run that stays below the wrap bound, the identifiers
ever upserted are strictly increasing and all above the initial
counter. -/
lemma runIds_bounds (env : RemoteEnv) (ops : List StoreOp) :
    ∀ s : MState, 0 ≤ s.pointCounter →
      s.pointCounter + runAlloc ops ≤ 2 ^ 63 - 1 →
      (runIds env s ops).Pairwise (· < ·) ∧
      ∀ id ∈ runIds env s ops, s.pointCounter < id := by
  induction ops with
  | nil =>
    intro s _ _
    simp [runIds]
  | cons op rest ih =>
    intro s h0 hbnd
    rw [show runAlloc (op :: rest) = opAlloc op + runAlloc rest from by simp [runAlloc]]
      at hbnd
    push_cast at hbnd
    cases ha : applyStoreOp env s op with
    | none => simp [runIds, ha]
    | some pr =>
      obtain ⟨s', calls⟩ := pr
      obtain ⟨hle, hub, hpair, hbound⟩ := applyStoreOp_ids env s op s' calls ha h0
        (by omega)
      obtain ⟨ihpair, ihbound⟩ := ih s' (by omega) (by omega)
      have hrw : runIds env s (op :: rest) = upsertedIds calls ++ runIds env s' rest := by
        simp [runIds, ha]
      rw [hrw]
      constructor
      · refine List.pairwise_append.mpr ⟨hpair, ihpair, ?_⟩
        intro a hamem b hbmem
        have h1 := (hbound a hamem).2
        have h2 := ihbound b hbmem
        omega
      · intro id hid
        rcases List.mem_append.mp hid with h' | h'
        · exact (hbound id h').1
        · have := ihbound id h'
          omega

/-- C8: over any sequence of StoreMessage and StoreMessages calls of one
running instance, starting from the freshly constructed store (whose
int64 counter holds the zero value) and staying within the int64 range
(fewer than 2 to the 63 identifier increments in total, which covers
every physically realizable run), the point identifiers upserted are
strictly increasing in allocation order, so no two stored points share an
identifier. -/
theorem point_ids_strictly_increasing (env : RemoteEnv) (enabled : Bool)
    (ops : List StoreOp) (hrun : (runAlloc ops : Int) ≤ 2 ^ 63 - 1) :
    (runIds env ⟨enabled, 0⟩ ops).Pairwise (· < ·) ∧
    (runIds env ⟨enabled, 0⟩ ops).Nodup := by
  have h := runIds_bounds env ops ⟨enabled, 0⟩ le_rfl (by simpa using hrun)
  exact ⟨h.1, h.1.imp (fun hab => ne_of_lt hab)⟩

/-- A remote environment whose every call succeeds, for the
identifier-monotonicity witness. -/
def envRun : RemoteEnv :=
  ⟨fun _ => .ok [0], fun texts => .ok (texts.map (fun _ => [0])), fun _ => .ok (),
   fun _ _ _ => .ok [], fun _ => .ok ()⟩

/-- A two-operation run (one single store, one batch store of one
message), for the identifier-monotonicity witness. -/
def opsRun : List StoreOp :=
  [.one "telegram:123456" ⟨"user", "hi", false⟩ 0 "t0",
   .batch [⟨"telegram:123456", ⟨"assistant", "hello", false⟩, "t1", 1⟩]]

/-- Witness for the identifier-monotonicity theorem on a concrete
two-operation run from the fresh enabled store. -/
theorem point_ids_strictly_increasing_witness :
    ((runAlloc opsRun : Int) ≤ 2 ^ 63 - 1) ∧
    ((runIds envRun ⟨true, 0⟩ opsRun).Pairwise (· < ·) ∧
     (runIds envRun ⟨true, 0⟩ opsRun).Nodup) :=
  ⟨by decide, point_ids_strictly_increasing envRun true opsRun (by decide)⟩

end PicoClaw
